import Mathlib

/-!
Shallow embedding of `src/src/lib.rs` (crate `limiter`): a token-bucket rate
limiter with `u64` fields.  The Rust code uses atomics; here every operation is
modelled sequentially (each compare-and-swap succeeds on the first try, which
is exactly the single-threaded execution).  Machine `u64` arithmetic is
modelled on `Nat` with an explicit reduction modulo `2^64` wherever the Rust
operation wraps (`fetch_add` / `fetch_sub` always wrap; plain `+`, `-`, `*`
wrap in release builds and panic in debug builds — the wrapping semantics is
used, and the theorems point out where an underflow occurs).  The clock is an
explicit `now : Nat` argument (the Rust code reads wall-clock nanoseconds).
-/

namespace RustLimiter

/-- The modulus of `u64` arithmetic, `2^64`. -/
def U64 : Nat := 18446744073709551616

/-- Rust `x as u64` for `x : i64` (two's-complement reinterpretation). -/
def u64cast (x : Int) : Nat := (x % (U64 : Int)).toNat

/-- Wrapping `u64` addition (plain `+` in release mode, `fetch_add`). -/
def uadd (a b : Nat) : Nat := (a + b) % U64

/-- Wrapping `u64` multiplication (plain `*` in release mode). -/
def umul (a b : Nat) : Nat := (a * b) % U64

/-- Wrapping `u64` subtraction (plain `-` in release mode, `fetch_sub`),
for operands already reduced below `2^64`. -/
def usub (a b : Nat) : Nat := (U64 + a - b) % U64

/-- `chrono::Duration::num_nanoseconds`: the duration's length in nanoseconds
as `Option<i64>` — `None` when the exact value falls outside the `i64` range.
The argument is the duration's exact nanosecond count as an integer. -/
def num_nanoseconds (d : Int) : Option Int :=
  if -9223372036854775808 ≤ d ∧ d ≤ 9223372036854775807 then some d else none

/-- The `Limiter` struct of `lib.rs`: `rate`, `allowance`, `max`, `last_check`
are `AtomicU64`, `unit` is a plain `u64`. -/
structure Limiter where
  rate : Nat
  allowance : Nat
  max : Nat
  unit : Nat
  last_check : Nat
  deriving Repr, DecidableEq

/-- `Limiter::new(rate, per)`.  `per` is the period's exact nanosecond count;
`now` is the clock reading `unix_nano()`.  The Rust code calls
`per.num_nanoseconds().unwrap()` — the `unwrap` panics on `None`, modelled by
returning `none`.  Note the order of operations in the source: the i64→u64
cast happens *before* the `< 1` check, and the rate clamp happens *before* the
i64→u64 cast. -/
def Limiter.new (rate : Int) (per : Int) (now : Nat) : Option Limiter :=
  match num_nanoseconds per with
  | none => none
  | some n =>
    let nano0 := u64cast n
    let nano := if nano0 < 1 then u64cast 1000000000 else nano0
    let r : Int := if rate < 1 then 1 else rate
    let rateU := u64cast r
    some { rate := rateU
           allowance := umul rateU nano
           max := umul rateU nano
           unit := nano
           last_check := now }

/-- `Limiter::update_rate(rate)`: casts the `i64` argument straight to `u64`
(no clamp in the source) and stores `rate` and `rate * unit`. -/
def Limiter.update_rate (l : Limiter) (rate : Int) : Limiter :=
  let r := u64cast rate
  { l with rate := r, max := umul r l.unit }

/-- The elapsed-time computation inside `Limiter::limit`:
`now - self.last_check.swap(now)`, a plain `u64` subtraction. -/
def Limiter.elapsed (l : Limiter) (now : Nat) : Nat := usub now l.last_check

/-- `Limiter::limit()`, sequential execution (the `compare_exchange_weak` loop
succeeds on its first iteration when there is no interference).  Returns the
boolean result (`true` = rate-limited) and the post-state. -/
def Limiter.limit (l : Limiter) (now : Nat) : Bool × Limiter :=
  let rate := l.rate
  let passed := l.elapsed now
  let l1 : Limiter := { l with last_check := now }
  let prev := l1.allowance
  let curr := uadd prev (umul passed rate)
  let l2 : Limiter := { l1 with allowance := curr }
  let mx := l2.max
  let l3 : Limiter :=
    if mx ≤ curr then { l2 with allowance := usub l2.allowance (usub curr mx) } else l2
  let curr2 := if mx ≤ curr then mx else curr
  if curr2 < l3.unit then (true, l3)
  else (false, { l3 with allowance := usub l3.allowance l3.unit })

/-- `Limiter::undo()`: `fetch_add(unit)` capturing `prev`, then if
`prev >= max` another `fetch_add(max - prev)` (the inner `max - prev` is a
plain `u64` subtraction). -/
def Limiter.undo (l : Limiter) : Limiter :=
  let mx := l.max
  let prev := l.allowance
  let l1 : Limiter := { l with allowance := uadd prev l.unit }
  if mx ≤ prev then { l1 with allowance := uadd l1.allowance (usub mx prev) } else l1

/-- One `limit()` call with no time elapsing: the clock reads exactly the
stored `last_check`. -/
def Limiter.limit0 (l : Limiter) : Bool × Limiter := l.limit l.last_check

/-- `n` successive `limit()` calls with no time elapsing between them. -/
def Limiter.burst (l : Limiter) : Nat → Limiter
  | 0 => l
  | n + 1 => (Limiter.burst l n).limit0.2

/-! ### Arithmetic helper lemmas -/

theorem usub_self (a : Nat) : usub a a = 0 := by
  unfold usub U64
  omega

theorem usub_of_le (a b : Nat) (hba : b ≤ a) (ha : a < U64) : usub a b = a - b := by
  unfold usub U64 at *
  omega

theorem uadd_of_lt (a b : Nat) (h : a + b < U64) : uadd a b = a + b := by
  unfold uadd U64 at *
  omega

theorem umul_zero_left (b : Nat) : umul 0 b = 0 := by
  unfold umul U64
  simp

theorem umul_of_lt (a b : Nat) (h : a * b < U64) : umul a b = a * b := by
  unfold umul
  exact Nat.mod_eq_of_lt h

theorem u64cast_ofNat (n : Nat) (h : n < U64) : u64cast (n : Int) = n := by
  unfold u64cast U64 at *
  omega

theorem U64_pos : 0 < U64 := by unfold U64; omega

theorem uadd_zero (a : Nat) (h : a < U64) : uadd a 0 = a := by
  unfold uadd
  rw [Nat.add_zero]
  exact Nat.mod_eq_of_lt h

theorem uadd_lt (a b : Nat) : uadd a b < U64 := by
  unfold uadd
  exact Nat.mod_lt _ U64_pos

/-! ### Claim theorems -/

/-- C1: the claim says `update_rate(r)` clamps any `r ≤ 0` to a stored rate of
1 with `max = 1 * unit`.  The source has no clamp: it casts the `i64` argument
straight to `u64`.  On the state `⟨rate 5, allowance 50, max 50, unit 10⟩`,
`update_rate 0` stores rate `0` and max `0` (not `1` and `10`), and
`update_rate (-1)` stores rate `2^64 - 1`. -/
theorem C1_update_rate_no_clamp :
    ((Limiter.mk 5 50 50 10 0).update_rate 0).rate = 0 ∧
    ((Limiter.mk 5 50 50 10 0).update_rate 0).max = 0 ∧
    ((Limiter.mk 5 50 50 10 0).update_rate (-1)).rate = 18446744073709551615 := by
  refine ⟨rfl, rfl, rfl⟩

/-- C2: the claim says a clock regression (`now < last_check`) is treated as
zero elapsed time, with no underflow.  The source computes
`now - last_check.swap(now)` with an unguarded `u64` subtraction: on the state
`⟨rate 1, allowance 0, max 10, unit 10, last_check 100⟩` with the clock
reading `90`, the computed elapsed time is `2^64 - 10` (an underflow wrap; a
debug build panics here), and `limit()` consequently admits the call
(`false`), whereas the same call with zero elapsed time (`now = 100`) is
rate-limited (`true`). -/
theorem C2_clock_regression_underflow :
    (Limiter.mk 1 0 10 10 100).elapsed 90 = 18446744073709551606 ∧
    ((Limiter.mk 1 0 10 10 100).limit 90).1 = false ∧
    ((Limiter.mk 1 0 10 10 100).limit 100).1 = true := by
  refine ⟨rfl, rfl, rfl⟩

/-- C3: the claim says that when `undo()` runs with a prior allowance
`prev ≥ max`, the refund's compensation leaves `allowance ≤ max`.  The
compensation `fetch_add(max - prev)` cancels only the overshoot relative to
`prev`, not the freshly added `unit`: on `⟨rate 1, allowance 10, max 10,
unit 5⟩` (so `prev = max = 10`), `undo()` leaves `allowance = 15 = max + unit
> max`. -/
theorem C3_undo_exceeds_max :
    (Limiter.mk 1 10 10 5 0).undo.allowance = 15 ∧
    (Limiter.mk 1 10 10 5 0).max < (Limiter.mk 1 10 10 5 0).undo.allowance := by
  refine ⟨rfl, by decide⟩

/-- C4: the claim says every period converting to less than 1 nanosecond
(including every negative duration) makes `new` default `unit` to `10^9`.
The source casts the signed nanosecond count to `u64` *before* the `< 1`
check, so a period of `-1` nanosecond becomes `2^64 - 1`, passes the check,
and is stored as `unit` — not `10^9`. -/
theorem C4_negative_period_unit :
    (Limiter.new 1 (-1) 0).map Limiter.unit = some 18446744073709551615 ∧
    (18446744073709551615 : Nat) ≠ 1000000000 := by
  refine ⟨rfl, by decide⟩

/-- C10: `new(rate, per)` calls `per.num_nanoseconds().unwrap()`; when the
period's exact nanosecond count falls outside the `i64` range the conversion
yields `None` and the `unwrap` panics (modelled as `new` returning `none`):
construction is not total over all duration inputs. -/
theorem C10_new_panics (rate per : Int) (now : Nat)
    (h : per < -9223372036854775808 ∨ 9223372036854775807 < per) :
    Limiter.new rate per now = none := by
  unfold Limiter.new num_nanoseconds
  rcases h with h | h
  · rw [if_neg (by omega)]
  · rw [if_neg (by omega)]

/-- Witness for C10 at the concrete period `2^63` nanoseconds. -/
theorem C10_new_panics_witness :
    Limiter.new 1 9223372036854775808 0 = none :=
  C10_new_panics 1 9223372036854775808 0 (Or.inr (by decide))

/-- C9: for any rate below `10^10` and unit of at most `10^9` nanoseconds,
the product `rate * unit` (computed by wrapping `u64` multiplication `umul`
both in `new` and in `update_rate`) does not wrap: it stays below `2^64`, and
`update_rate` stores exactly `rate * unit` as `max`. -/
theorem C9_no_overflow (r u : Nat) (l : Limiter)
    (h1 : r < 10 ^ 10) (h2 : u ≤ 10 ^ 9) (hu : l.unit = u) :
    r * u < U64 ∧ (l.update_rate (r : Int)).max = r * u := by
  have hru : r * u < U64 := by
    have h3 : r * u ≤ r * 10 ^ 9 := Nat.mul_le_mul_left r h2
    have h4 : r * 10 ^ 9 < 10 ^ 10 * 10 ^ 9 :=
      Nat.mul_lt_mul_of_lt_of_le h1 (Nat.le_refl _) (by norm_num)
    unfold U64
    calc r * u ≤ r * 10 ^ 9 := h3
      _ < 10 ^ 10 * 10 ^ 9 := h4
      _ ≤ 18446744073709551616 := by norm_num
  refine ⟨hru, ?_⟩
  unfold Limiter.update_rate
  have hc : u64cast (r : Int) = r := u64cast_ofNat r (by unfold U64 at *; omega)
  simp only [hc, hu]
  exact umul_of_lt r u hru

/-- Witness for C9 at rate 5, unit 7. -/
theorem C9_no_overflow_witness :
    5 * 7 < U64 ∧ ((Limiter.mk 1 0 0 7 0).update_rate (5 : Int)).max = 5 * 7 :=
  C9_no_overflow 5 7 (Limiter.mk 1 0 0 7 0) (by decide) (by decide) rfl

/-- C8: every `limit()` evaluation clamps an over-`max` accrual down to `max`
before the consumption decision, so whatever state a sequence of `limit()` /
`undo()` calls left behind (any `allowance`, however far over budget), the
state after the next `limit()` call satisfies `allowance ≤ max`.  (`limit`
never changes `max`, so `l.max` is also the post-state's `max`.) -/
theorem C8_allowance_le_max (l : Limiter) (now : Nat) (hmax : l.max < U64) :
    ((l.limit now).2).allowance ≤ l.max := by
  unfold Limiter.limit Limiter.elapsed
  dsimp only
  have hcU : uadd l.allowance (umul (usub now l.last_check) l.rate) < U64 :=
    uadd_lt _ _
  by_cases hc : l.max ≤ uadd l.allowance (umul (usub now l.last_check) l.rate)
  · simp only [if_pos hc]
    have hs1 : usub (uadd l.allowance (umul (usub now l.last_check) l.rate)) l.max
        = uadd l.allowance (umul (usub now l.last_check) l.rate) - l.max :=
      usub_of_le _ _ hc hcU
    have hs2 : usub (uadd l.allowance (umul (usub now l.last_check) l.rate))
        (uadd l.allowance (umul (usub now l.last_check) l.rate) - l.max) = l.max := by
      rw [usub_of_le _ _ (Nat.sub_le _ _) hcU]
      omega
    rw [hs1, hs2]
    by_cases hd : l.max < l.unit
    · simp only [if_pos hd]
      exact Nat.le_refl _
    · simp only [if_neg hd]
      rw [usub_of_le _ _ (Nat.le_of_not_lt hd) hmax]
      omega
  · simp only [if_neg hc]
    have hclt : uadd l.allowance (umul (usub now l.last_check) l.rate) < l.max :=
      Nat.lt_of_not_le hc
    by_cases hd : uadd l.allowance (umul (usub now l.last_check) l.rate) < l.unit
    · simp only [if_pos hd]
      exact Nat.le_of_lt hclt
    · simp only [if_neg hd]
      rw [usub_of_le _ _ (Nat.le_of_not_lt hd) hcU]
      omega

/-- Witness for C8 on a state whose allowance (100) is far above max (10). -/
theorem C8_allowance_le_max_witness :
    (((Limiter.mk 1 100 10 5 0).limit 3).2).allowance ≤ (Limiter.mk 1 100 10 5 0).max :=
  C8_allowance_le_max (Limiter.mk 1 100 10 5 0) 3 (by decide)

/-- C7: from a state not at the ceiling (`allowance < max`) with at least one
unit available (`unit ≤ allowance`, so the call is admitted), a `limit()`
call with no time elapsing (clock reads the stored `last_check`) returns
"not limited", and an immediately following `undo()` restores the limiter to
exactly its pre-`limit()` state — hence any subsequent call behaves as if the
undone call never happened. -/
theorem C7_undo_restores (l : Limiter)
    (h1 : l.unit ≤ l.allowance) (h2 : l.allowance < l.max) (h3 : l.allowance < U64) :
    (l.limit l.last_check).1 = false ∧ ((l.limit l.last_check).2).undo = l := by
  unfold Limiter.limit Limiter.elapsed Limiter.undo
  dsimp only
  rw [usub_self, umul_zero_left, uadd_zero l.allowance h3]
  simp only [if_neg (Nat.not_le_of_lt h2), if_neg (Nat.not_lt_of_le h1)]
  rw [usub_of_le _ _ h1 h3]
  have hprev : ¬ l.max ≤ l.allowance - l.unit := by omega
  simp only [if_neg hprev]
  have hback : uadd (l.allowance - l.unit) l.unit = l.allowance := by
    unfold uadd U64 at *
    omega
  rw [hback]
  exact ⟨trivial, rfl⟩

/-- Witness for C7: allowance 5, max 10, unit 3. -/
theorem C7_undo_restores_witness :
    ((Limiter.mk 1 5 10 3 0).limit (Limiter.mk 1 5 10 3 0).last_check).1 = false ∧
    (((Limiter.mk 1 5 10 3 0).limit (Limiter.mk 1 5 10 3 0).last_check).2).undo
      = Limiter.mk 1 5 10 3 0 :=
  C7_undo_restores (Limiter.mk 1 5 10 3 0) (by decide) (by decide) (by decide)

/-- C6: from any state a rate-limited `limit()` call leaves behind
(`allowance < unit`; `rate`, `unit`, `max = rate * unit` unchanged), if at
least one token's worth of time elapses before the next call — `delta`
nanoseconds with `unit ≤ delta * rate`, i.e. `delta ≥ unit/rate` in exact
arithmetic — then that next `limit()` call returns "not limited".  The two
bound hypotheses keep the `u64` arithmetic below `2^64`. -/
theorem C6_replenish (l : Limiter) (delta : Nat)
    (hr : 1 ≤ l.rate) (hmax : l.max = l.rate * l.unit)
    (hlim : l.allowance < l.unit)
    (hwait : l.unit ≤ delta * l.rate)
    (hov : l.allowance + delta * l.rate < U64)
    (hnow : l.last_check + delta < U64) :
    (l.limit (l.last_check + delta)).1 = false := by
  unfold Limiter.limit Limiter.elapsed
  dsimp only
  have hel : usub (l.last_check + delta) l.last_check = delta := by
    rw [usub_of_le _ _ (Nat.le_add_right _ _) hnow]
    omega
  rw [hel, umul_of_lt delta l.rate (by omega), uadd_of_lt _ _ hov]
  by_cases hc : l.max ≤ l.allowance + delta * l.rate
  · simp only [if_pos hc]
    have hd : ¬ l.max < l.unit := by
      rw [hmax]
      have := Nat.le_mul_of_pos_left l.unit (show 0 < l.rate from hr)
      omega
    simp only [if_neg hd]
  · simp only [if_neg hc]
    have hd : ¬ l.allowance + delta * l.rate < l.unit := by omega
    simp only [if_neg hd]

/-- Witness for C6: a just-limited state (allowance 0, unit 10, rate 1)
followed by a wait of exactly unit/rate = 10 nanoseconds. -/
theorem C6_replenish_witness :
    ((Limiter.mk 1 0 10 10 0).limit ((Limiter.mk 1 0 10 10 0).last_check + 10)).1 = false :=
  C6_replenish (Limiter.mk 1 0 10 10 0) 10 (by decide) (by decide) (by decide)
    (by decide) (by decide) (by decide)

/-! ### The burst quota (C5) -/

theorem sub_mul_succ (R k u : Nat) : (R - k) * u - u = (R - (k + 1)) * u := by
  have h : R - (k + 1) = (R - k) - 1 := by omega
  rw [h, Nat.sub_mul (R - k) 1 u, Nat.one_mul]

/-- One admitted call of the zero-elapsed burst: from the state reached after
`k < R` calls (allowance `(R-k)·u`), `limit()` returns `false` and leaves
allowance `(R-(k+1))·u`. -/
theorem limit0_step (R u now k : Nat) (hR : 1 ≤ R) (hu : 1 ≤ u)
    (hmul : R * u < U64) (hk : k < R) :
    (Limiter.mk R ((R - k) * u) (R * u) u now).limit0
      = (false, Limiter.mk R ((R - (k + 1)) * u) (R * u) u now) := by
  have haRu : (R - k) * u ≤ R * u := Nat.mul_le_mul_right u (Nat.sub_le R k)
  have haU : (R - k) * u < U64 := Nat.lt_of_le_of_lt haRu hmul
  have hua : u ≤ (R - k) * u := by
    calc u = 1 * u := (Nat.one_mul u).symm
      _ ≤ (R - k) * u := Nat.mul_le_mul_right u (by omega)
  unfold Limiter.limit0 Limiter.limit Limiter.elapsed
  dsimp only
  rw [usub_self, umul_zero_left, uadd_zero _ haU]
  by_cases hk0 : k = 0
  · subst hk0
    simp only [Nat.sub_zero] at *
    rw [if_pos (Nat.le_refl (R * u)), usub_self,
      usub_of_le (R * u) 0 (Nat.zero_le _) hmul, Nat.sub_zero,
      if_pos (Nat.le_refl (R * u)),
      if_neg (Nat.not_lt_of_le hua)]
    dsimp only
    rw [usub_of_le (R * u) u hua hmul]
    have : R * u - u = (R - (0 + 1)) * u := by
      rw [Nat.zero_add, ← Nat.sub_zero R]
      exact sub_mul_succ R 0 u
    rw [this]
  · have hlt : (R - k) * u < R * u :=
      Nat.mul_lt_mul_of_lt_of_le (by omega) (Nat.le_refl u) (by omega)
    rw [if_neg (Nat.not_le_of_lt hlt), if_neg (Nat.not_le_of_lt hlt),
      if_neg (Nat.not_lt_of_le hua)]
    dsimp only
    rw [usub_of_le _ _ hua haU, sub_mul_succ]

/-- The `(R+1)`-th call of the zero-elapsed burst: with allowance 0 the call
is rate-limited and consumes nothing. -/
theorem limit0_exhausted (R u now : Nat) (hR : 1 ≤ R) (hu : 1 ≤ u)
    (hmul : R * u < U64) :
    (Limiter.mk R 0 (R * u) u now).limit0 = (true, Limiter.mk R 0 (R * u) u now) := by
  have hpos : 0 < R * u := Nat.mul_pos (by omega) (by omega)
  unfold Limiter.limit0 Limiter.limit Limiter.elapsed
  dsimp only
  rw [usub_self, umul_zero_left, uadd_zero 0 U64_pos,
    if_neg (Nat.not_le_of_lt hpos), if_neg (Nat.not_le_of_lt hpos), if_pos (by omega : 0 < u)]

/-- Closed form of the zero-elapsed burst: after `k ≤ R` calls the allowance
is `(R-k)·u` and nothing else has changed. -/
theorem burst_closed (R u now k : Nat) (hR : 1 ≤ R) (hu : 1 ≤ u)
    (hmul : R * u < U64) (hk : k ≤ R) :
    (Limiter.mk R (R * u) (R * u) u now).burst k
      = Limiter.mk R ((R - k) * u) (R * u) u now := by
  induction k with
  | zero => simp [Limiter.burst]
  | succ n ih =>
    unfold Limiter.burst
    rw [ih (by omega), limit0_step R u now n hR hu hmul (by omega)]

/-- C5: on a freshly constructed limiter `new(R, period)` (rate `R ≥ 1`,
period of `u ≥ 1` nanoseconds, both within `i64`, with `R·u` below `2^64` —
the "long period" reading where no wrap occurs) and with no time elapsing
between calls (each call's clock reading equals the stored `last_check`),
each of the first `R` calls to `limit()` returns `false` and the `(R+1)`-th
call returns `true`. -/
theorem C5_burst_quota (R u now : Nat) (l : Limiter)
    (hR : 1 ≤ R) (hu : 1 ≤ u)
    (hR63 : R < 9223372036854775808) (hu63 : u < 9223372036854775808)
    (hmul : R * u < U64)
    (hl : Limiter.new (R : Int) (u : Int) now = some l) :
    (∀ i, i < R → ((l.burst i).limit0).1 = false) ∧ ((l.burst R).limit0).1 = true := by
  have hcastu : num_nanoseconds (u : Int) = some (u : Int) := by
    unfold num_nanoseconds
    rw [if_pos (by omega)]
  have hUbig : (9223372036854775808 : Nat) < U64 := by unfold U64; omega
  unfold Limiter.new at hl
  rw [hcastu] at hl
  dsimp only at hl
  rw [u64cast_ofNat u (by omega)] at hl
  rw [if_neg (by omega : ¬ u < 1), if_neg (by omega : ¬ (R : Int) < 1)] at hl
  rw [u64cast_ofNat R (by omega)] at hl
  rw [umul_of_lt R u hmul] at hl
  rw [Option.some.injEq] at hl
  subst hl
  constructor
  · intro i hi
    rw [burst_closed R u now i hR hu hmul (Nat.le_of_lt hi),
      limit0_step R u now i hR hu hmul hi]
  · rw [burst_closed R u now R hR hu hmul (Nat.le_refl R), Nat.sub_self, Nat.zero_mul,
      limit0_exhausted R u now hR hu hmul]

/-- Witness for C5 at rate 2, period 3 ns: the 2nd call passes, the 3rd is
limited. -/
theorem C5_burst_quota_witness :
    (((Limiter.mk 2 6 6 3 0).burst 1).limit0).1 = false ∧
    (((Limiter.mk 2 6 6 3 0).burst 2).limit0).1 = true :=
  ⟨(C5_burst_quota 2 3 0 (Limiter.mk 2 6 6 3 0) (by decide) (by decide) (by decide)
      (by decide) (by decide) rfl).1 1 (by decide),
   (C5_burst_quota 2 3 0 (Limiter.mk 2 6 6 3 0) (by decide) (by decide) (by decide)
      (by decide) (by decide) rfl).2⟩

end RustLimiter
